import Mathlib

/-!
# Verification of the Future-of-Trust custody engine core

A shallow embedding, in Lean 4, of the parts of the custody engine that the
frozen claims are about:

* the in-process audit tracker (`engine/src/audit/mod.rs`),
* the operational-DID registry (`engine/src/registry/operational_did_registry.rs`),
* the sealed vault record store and its convenience mutators
  (`engine/src/vault/mod.rs`, `engine/src/vault/backend/simulated.rs`),
* the vault-side FROST signing helpers (`engine/src/vault/signing.rs`),
* the MPC signing coordinator (`engine/src/mpc/coordinator.rs`),
* the node-local DKG engine (`engine/src/dkg/dkg_engine.rs`),
* the shard-filename validator (`engine/src/utils/filesname.rs`).

Rust `HashMap`s are modelled as association lists whose `insert` replaces an
existing binding, `Vec` as `List`, byte strings as `List Nat`, and fallible
operations as `Except`/`Option` values returned together with the updated
state.  Cryptographic primitives (AES-GCM, base64, bincode, FROST arithmetic)
are not re-implemented: they enter the model as explicit function parameters,
so every theorem states exactly which properties of them it uses.
-/

/-! ## Association maps (the model of Rust `HashMap`) -/

/-- First binding for key `k`, as `HashMap::get`. -/
def mapGet (m : List (String × α)) (k : String) : Option α :=
  match m with
  | [] => none
  | (k', v) :: rest => if k' = k then some v else mapGet rest k

/-- `HashMap::insert`: replaces the binding for `k` when present, appends it
otherwise.  The replacement semantics matter: the engine stores duplicate DKG
round packages through this operation. -/
def mapPut (m : List (String × α)) (k : String) (v : α) : List (String × α) :=
  match m with
  | [] => [(k, v)]
  | (k', v') :: rest => if k' = k then (k, v) :: rest else (k', v') :: mapPut rest k v

/-- `HashMap::remove`: drops the first binding for `k`. -/
def mapDrop (m : List (String × α)) (k : String) : List (String × α) :=
  match m with
  | [] => []
  | (k', v') :: rest => if k' = k then rest else (k', v') :: mapDrop rest k

theorem mapGet_mapPut_self (m : List (String × α)) (k : String) (v : α) :
    mapGet (mapPut m k v) k = some v := by
  induction m with
  | nil => simp [mapPut, mapGet]
  | cons hd tl ih =>
    obtain ⟨k', v'⟩ := hd
    by_cases h : k' = k <;> simp [mapPut, mapGet, h, ih]

theorem mapGet_mapPut_other (m : List (String × α)) (k k' : String) (v : α)
    (h : k' ≠ k) : mapGet (mapPut m k v) k' = mapGet m k' := by
  have hne : ¬ (k = k') := fun hh => h hh.symm
  induction m with
  | nil => simp [mapPut, mapGet, hne]
  | cons hd tl ih =>
    obtain ⟨k₀, v₀⟩ := hd
    by_cases h₀ : k₀ = k
    · subst h₀
      simp [mapPut, mapGet, hne]
    · simp only [mapPut, if_neg h₀, mapGet]
      by_cases h₁ : k₀ = k' <;> simp [h₁, ih]

theorem mapGet_mapDrop_self (m : List (String × α)) (k : String)
    (hm : (m.map Prod.fst).Nodup) : mapGet (mapDrop m k) k = none := by
  induction m with
  | nil => simp [mapDrop, mapGet]
  | cons hd tl ih =>
    obtain ⟨k', v'⟩ := hd
    simp only [List.map_cons, List.nodup_cons] at hm
    by_cases h : k' = k
    · subst h
      simp only [mapDrop, if_pos rfl]
      -- `k'` does not occur in `tl`, so lookup misses
      clear ih
      induction tl with
      | nil => simp [mapGet]
      | cons hd₂ tl₂ ih₂ =>
        obtain ⟨k₂, v₂⟩ := hd₂
        simp only [List.map_cons, List.mem_cons, List.nodup_cons] at hm
        have hne : k₂ ≠ k' := fun h => hm.1 (Or.inl h.symm)
        simp only [mapGet, if_neg hne]
        exact ih₂ ⟨fun h => hm.1 (Or.inr h), hm.2.2⟩
    · simp only [mapDrop, if_neg h, mapGet, if_neg h]
      exact ih hm.2

/-! ## Audit tracker (`engine/src/audit/mod.rs`) -/

/-- `AuditEventType` as declared in `audit/mod.rs`. -/
inductive AuditEventType where
  | keygen
  | signing
  | aggregation
  | verification
  | error
deriving Repr, DecidableEq

/-- `AuditRecord`: one audit entry.  Timestamps are opaque RFC-3339 strings;
participant ids are `Option Nat` for Rust's `Option<u8>`. -/
structure AuditRecord where
  event_type : AuditEventType
  session_id : String
  participant_id : Option Nat
  message : String
  timestamp : String
deriving Repr, DecidableEq

/-- `AuditTracker`: the `VecDeque` is a `List` whose head is the FRONT of the
deque (the oldest record); `push_back` appends, `pop_front` drops the head. -/
structure AuditTracker where
  records : List AuditRecord
  max_entries : Nat
deriving Repr, DecidableEq

/-- `AuditTracker::new(max_entries)`. -/
def AuditTracker.new (max_entries : Nat) : AuditTracker :=
  { records := [], max_entries := max_entries }

/-- `AuditTracker::log`: evict the oldest record when the deque already holds
`max_entries` records, then push the new record at the back. -/
def AuditTracker.log (t : AuditTracker) (r : AuditRecord) : AuditTracker :=
  let recs := if t.records.length = t.max_entries then t.records.tail else t.records
  { t with records := recs ++ [r] }

/-- `AuditTracker::recent(count)`: newest first, at most `count` records. -/
def AuditTracker.recent (t : AuditTracker) (count : Nat) : List AuditRecord :=
  t.records.reverse.take count

/-- The global `AUDIT` tracker is `AuditTracker::new(500)`. -/
def auditGlobalCapacity : Nat := 500

/-! ## Vault records (`engine/src/types.rs`) -/

/-- `VcRecord`: one stored verifiable-credential entry. -/
structure VcRecord where
  vc_id : String
  vc_json : String
  is_revoked : Bool
deriving Repr, DecidableEq

/-- `VaultRecord` as declared in `engine/src/types.rs`.  Byte blobs
(`Vec<u8>`) are `List Nat`. -/
structure VaultRecord where
  root_did : String
  op_dids : List String
  mpc_shard : Option String
  group_metadata : Option String
  public_keys : List String
  vcs : List VcRecord
  bbs_private_key : Option String
  bbs_public_key : Option String
  active_nonce : Option (List Nat)
deriving Repr, DecidableEq

/-! ## Record-level vault store (`engine/src/vault/mod.rs`)

The free functions in `vault/mod.rs` are read-modify-write sequences over the
process-wide backend.  At the level those functions observe, the backend is a
map from vault id to `VaultRecord` (the sealed representation is studied
separately with the simulated enclave below).  Each mutator returns the pair
of its `Result` and the updated store; on the error paths the store is the
unchanged input, because the Rust code returns before calling
`store_record`. -/

/-- The record-level view of the vault backend. -/
def VaultStore : Type := List (String × VaultRecord)

/-- `vault::load_record` (record-level): missing ids fail, as the simulated
backend's "Vault ID not found". -/
def load_record (s : VaultStore) (vault_id : String) : Except String VaultRecord :=
  match mapGet s vault_id with
  | some r => .ok r
  | none => .error "Vault ID not found"

/-- `vault::store_record` (record-level): overwrite the record. -/
def store_record (s : VaultStore) (vault_id : String) (r : VaultRecord) : VaultStore :=
  mapPut s vault_id r

/-- `vault::add_shard`: load, set `mpc_shard`, store. -/
def add_shard (s : VaultStore) (vault_id : String) (shard : String) :
    Except String Unit × VaultStore :=
  match load_record s vault_id with
  | .error e => (.error e, s)
  | .ok r => (.ok (), store_record s vault_id { r with mpc_shard := some shard })

/-- `vault::add_vc`: refuse duplicate credential ids, otherwise append an
unrevoked entry. -/
def add_vc (s : VaultStore) (vault_id vc_id vc_json : String) :
    Except String Unit × VaultStore :=
  match load_record s vault_id with
  | .error e => (.error e, s)
  | .ok r =>
    if r.vcs.any (fun vc => vc.vc_id = vc_id) then
      (.error "VC ID already exists", s)
    else
      (.ok (), store_record s vault_id
        { r with vcs := r.vcs ++ [{ vc_id := vc_id, vc_json := vc_json, is_revoked := false }] })

/-- `iter_mut().find(...)` followed by `vc.is_revoked = true`: set the flag on
the FIRST credential whose id matches, `none` when there is no match. -/
def revokeFirst (vcs : List VcRecord) (vc_id : String) : Option (List VcRecord) :=
  match vcs with
  | [] => none
  | vc :: rest =>
    if vc.vc_id = vc_id then some ({ vc with is_revoked := true } :: rest)
    else (revokeFirst rest vc_id).map (vc :: ·)

/-- `vault::revoke_vc`: load, flag the first matching credential, store. -/
def revoke_vc (s : VaultStore) (vault_id vc_id : String) :
    Except String Unit × VaultStore :=
  match load_record s vault_id with
  | .error e => (.error e, s)
  | .ok r =>
    match revokeFirst r.vcs vc_id with
    | none => (.error "VC ID not found", s)
    | some vcs' => (.ok (), store_record s vault_id { r with vcs := vcs' })

/-- `vault::delete_vc`: retain all credentials with a different id; error when
nothing was removed. -/
def delete_vc (s : VaultStore) (vault_id vc_id : String) :
    Except String Unit × VaultStore :=
  match load_record s vault_id with
  | .error e => (.error e, s)
  | .ok r =>
    let vcs' := r.vcs.filter (fun vc => vc.vc_id ≠ vc_id)
    if vcs'.length = r.vcs.length then (.error "VC ID not found", s)
    else (.ok (), store_record s vault_id { r with vcs := vcs' })

/-- `vault::get_vc`: return the json of the credential with this id, only if
it is not revoked. -/
def get_vc (s : VaultStore) (vault_id vc_id : String) : Except String String :=
  match load_record s vault_id with
  | .error e => .error e
  | .ok r =>
    match r.vcs.find? (fun vc => vc.vc_id = vc_id && !vc.is_revoked) with
    | some vc => .ok vc.vc_json
    | none => .error "VC not found or revoked"

/-! ## Operational-DID registry (`engine/src/registry/operational_did_registry.rs`) -/

/-- The `CustodyError` variants as used at the registry call sites
(`NotFound`, `AlreadyExists`, `RegistryError`). -/
inductive CustodyError where
  | notFound (msg : String)
  | alreadyExists (msg : String)
  | registryError (msg : String)
deriving Repr, DecidableEq

/-- `MPCMemberDescriptor`.  The registry declares the
`vault_reference`/`custody_node_id`/`shard_index` fields; `dkg_engine.rs` and
`mpc/coordinator.rs` additionally read and write `node_id` and `public_share`
on the same struct, so the embedding carries all of them, with
`custody_node_id` standing for both spellings of the node identifier. -/
structure MPCMemberDescriptor where
  vault_reference : String
  custody_node_id : String
  shard_index : Nat
  public_share : String
deriving Repr, DecidableEq

/-- `MPCGroupDescriptor`. -/
structure MPCGroupDescriptor where
  group_id : String
  members : List MPCMemberDescriptor
  threshold : Nat
  dkg_protocol : Option String
  session_state : Option (List Nat)
deriving Repr, DecidableEq

/-- `OperationalDIDEntry`.  The DID document is a raw byte blob. -/
structure OperationalDIDEntry where
  root_did_hash : String
  vault_id : String
  mpc_group : Option MPCGroupDescriptor
  audit_trail : List AuditRecord
  did_document : Option (List Nat)
deriving Repr, DecidableEq

/-- The registry's entry table. -/
def Registry : Type := List (String × OperationalDIDEntry)

/-- `register_operational_did`.  The Blake3 digest of the root DID enters the
model as the parameter `rootHash`; only its `"roothash:"`-prefixed image is
stored. -/
def register_operational_did (rootHash : String → String) (reg : Registry)
    (op_did root_did vault_id : String) (did_doc : List Nat) :
    Except CustodyError Unit × Registry :=
  match mapGet reg op_did with
  | some _ => (.error (.alreadyExists "Operational DID already registered"), reg)
  | none =>
    (.ok (), mapPut reg op_did
      { root_did_hash := "roothash:" ++ rootHash root_did
        vault_id := vault_id
        mpc_group := none
        audit_trail := []
        did_document := some did_doc })

/-- `rotate_operational_did`, exactly as written in the source: the entry for
`old_did` is removed (binding the removed entry, which is then dropped), a
`Signing`-kind audit record is logged to the global tracker, and the function
returns `Ok(())`.  No binding for `new_did` is created and `new_did` is never
looked up. -/
def rotate_operational_did (reg : Registry) (audit : AuditTracker)
    (old_did new_did : String) (now : String) :
    Except CustodyError Unit × Registry × AuditTracker :=
  match mapGet reg old_did with
  | none => (.error (.notFound "Old operational DID not found"), reg, audit)
  | some _entry =>
    (.ok (), mapDrop reg old_did,
      audit.log
        { event_type := .signing
          session_id := new_did
          participant_id := none
          message := "Rotated operational DID from " ++ old_did ++ " to " ++ new_did
          timestamp := now })

/-- `get_vault_id_for_operational_did`. -/
def get_vault_id_for_operational_did (reg : Registry) (op_did : String) : Option String :=
  (mapGet reg op_did).map (·.vault_id)

/-- `get_mpc_group`. -/
def get_mpc_group (reg : Registry) (op_did : String) : Option MPCGroupDescriptor :=
  (mapGet reg op_did).bind (·.mpc_group)

/-- `set_mpc_group`. -/
def set_mpc_group (reg : Registry) (op_did : String) (group : MPCGroupDescriptor) :
    Except CustodyError Unit × Registry :=
  match mapGet reg op_did with
  | none => (.error (.notFound "DID not found"), reg)
  | some entry => (.ok (), mapPut reg op_did { entry with mpc_group := some group })

/-! ## Shard filename validation (`engine/src/utils/filesname.rs`) -/

/-- Rust `str::parse::<u8>()` on a list of characters: an optional leading
`+`, then at least one ASCII digit, value `≤ 255`; anything else fails. -/
def parseU8 (s : List Char) : Option Nat :=
  let digits := match s with
    | '+' :: rest => rest
    | _ => s
  if digits = [] then none
  else if digits.all (fun c => c.isDigit) then
    let v := digits.foldl (fun acc c => acc * 10 + (c.toNat - 48)) 0
    if v ≤ 255 then some v else none
  else none

/-- Rust `str::split('_')`: every (possibly empty) chunk between underscores. -/
def splitUnderscore (s : List Char) : List (List Char) :=
  match s with
  | [] => [[]]
  | c :: rest =>
    let groups := splitUnderscore rest
    if c = '_' then [] :: groups
    else
      match groups with
      | [] => [[c]]
      | g :: gs => (c :: g) :: gs

/-- Does the chunk end with `.bin`? (Rust `str::ends_with(".bin")`). -/
def endsWithBin (s : List Char) : Bool :=
  ['.', 'b', 'i', 'n'].isSuffixOf s

/-- Fuel-bounded helper for `trimEndBin`; the fuel is an upper bound on the
number of strips, so `trimEndBin` below never exhausts it. -/
def trimEndBinAux : Nat → List Char → List Char
  | 0, s => s
  | fuel + 1, s => if endsWithBin s then trimEndBinAux fuel (s.take (s.length - 4)) else s

/-- Rust `str::trim_end_matches(".bin")`: remove EVERY trailing repetition of
`.bin`, not just one. -/
def trimEndBin (s : List Char) : List Char := trimEndBinAux s.length s

/-- `validate_shard_filename`, applied to the file-name component of the
path: split on `_`, require exactly the two chunks `shard` and a tail ending
in `.bin`, strip every trailing `.bin`, and parse the remainder as a `u8`.
Returns the participant id on success, `none` for every `IOError` return of
the source. -/
def validate_shard_filename (filename : List Char) : Option Nat :=
  match splitUnderscore filename with
  | [p0, p1] =>
    if p0 = ['s', 'h', 'a', 'r', 'd'] then
      if endsWithBin p1 then parseU8 (trimEndBin p1) else none
    else none
  | _ => none

/-- The specification-side filename language, written from the spec sentence
"Filename MUST match `shard_<u8>.bin`": literally `shard_`, a canonical
decimal `u8` numeral, then a single `.bin`. -/
def matchesSpecShardName (filename : List Char) : Bool :=
  (List.range 256).any (fun n =>
    filename = ['s', 'h', 'a', 'r', 'd', '_'] ++ (Nat.repr n).data ++ ['.', 'b', 'i', 'n'])

/-! ## Simulated-enclave backend (`engine/src/vault/backend/simulated.rs`)

`store_record` serializes the record, encrypts it under the process key with
a caller-invisible fresh 12-byte nonce, and files the `SealedBlob`;
`load_record` decrypts and deserializes.  The serializer below is an
executable stand-in for `serde_json::to_vec`/`from_slice` on `VaultRecord`
(an injective encoding with a total left inverse, which is the property the
backend relies on); AES-256-GCM enters as a pair of function parameters
together with the decrypt-of-encrypt law that authenticated encryption
provides. -/

/-- Serialize one `Nat` (a byte of a blob, or a length field). -/
def encNat (n : Nat) : List Nat := [n]

/-- Serialize a `Bool`. -/
def encBool (b : Bool) : List Nat := [if b then 1 else 0]

/-- Serialize a character list: length, then the code points. -/
def encChars (cs : List Char) : List Nat := cs.length :: cs.map Char.toNat

/-- Serialize a `String`. -/
def encString (s : String) : List Nat := encChars s.data

/-- Serialize an `Option`: tag 0 for `None`, tag 1 then the payload. -/
def encOpt (enc : α → List Nat) : Option α → List Nat
  | none => [0]
  | some x => 1 :: enc x

/-- Serialize a list: length, then the concatenated elements. -/
def encList (enc : α → List Nat) (xs : List α) : List Nat :=
  xs.length :: xs.foldr (fun x acc => enc x ++ acc) []

/-- Serialize a byte blob. -/
def encBytes (xs : List Nat) : List Nat := encList encNat xs

/-- Serialize a `VcRecord`. -/
def encVc (vc : VcRecord) : List Nat :=
  encString vc.vc_id ++ encString vc.vc_json ++ encBool vc.is_revoked

/-- Serialize a whole `VaultRecord` (the plaintext handed to the cipher). -/
def encodeRecord (r : VaultRecord) : List Nat :=
  encString r.root_did ++ encList encString r.op_dids ++
  encOpt encString r.mpc_shard ++ encOpt encString r.group_metadata ++
  encList encString r.public_keys ++ encList encVc r.vcs ++
  encOpt encString r.bbs_private_key ++ encOpt encString r.bbs_public_key ++
  encOpt encBytes r.active_nonce

/-- Parse one `Nat`, returning the remainder. -/
def decNat : List Nat → Option (Nat × List Nat)
  | [] => none
  | n :: rest => some (n, rest)

/-- Parse a `Bool`. -/
def decBool : List Nat → Option (Bool × List Nat)
  | 0 :: rest => some (false, rest)
  | 1 :: rest => some (true, rest)
  | _ => none

/-- Parse exactly `n` characters. -/
def decCharsN : Nat → List Nat → Option (List Char × List Nat)
  | 0, l => some ([], l)
  | _ + 1, [] => none
  | n + 1, c :: rest =>
    (decCharsN n rest).map (fun p => (Char.ofNat c :: p.1, p.2))

/-- Parse a `String`. -/
def decString (l : List Nat) : Option (String × List Nat) :=
  match decNat l with
  | none => none
  | some (n, r) =>
    match decCharsN n r with
    | none => none
    | some (cs, r') => some (String.mk cs, r')

/-- Parse an `Option`. -/
def decOpt (dec : List Nat → Option (α × List Nat)) (l : List Nat) :
    Option (Option α × List Nat) :=
  match l with
  | 0 :: rest => some (none, rest)
  | 1 :: rest => (dec rest).map (fun p => (some p.1, p.2))
  | _ => none

/-- Parse exactly `n` elements with `dec`. -/
def decCount (dec : List Nat → Option (α × List Nat)) :
    Nat → List Nat → Option (List α × List Nat)
  | 0, l => some ([], l)
  | n + 1, l =>
    match dec l with
    | none => none
    | some (x, r) => (decCount dec n r).map (fun p => (x :: p.1, p.2))

/-- Parse a list. -/
def decList (dec : List Nat → Option (α × List Nat)) (l : List Nat) :
    Option (List α × List Nat) :=
  match decNat l with
  | none => none
  | some (n, r) => decCount dec n r

/-- Parse a byte blob. -/
def decBytes (l : List Nat) : Option (List Nat × List Nat) :=
  decList decNat l

/-- Parse a `VcRecord`. -/
def decVc (l : List Nat) : Option (VcRecord × List Nat) :=
  match decString l with
  | none => none
  | some (vc_id, r1) =>
    match decString r1 with
    | none => none
    | some (vc_json, r2) =>
      match decBool r2 with
      | none => none
      | some (revoked, r3) =>
        some ({ vc_id := vc_id, vc_json := vc_json, is_revoked := revoked }, r3)

/-- Parse a whole `VaultRecord`; anything but a complete well-formed plaintext
is a deserialization failure. -/
def decodeRecord (l : List Nat) : Option VaultRecord :=
  match decString l with
  | none => none
  | some (root_did, r1) =>
  match decList decString r1 with
  | none => none
  | some (op_dids, r2) =>
  match decOpt decString r2 with
  | none => none
  | some (mpc_shard, r3) =>
  match decOpt decString r3 with
  | none => none
  | some (group_metadata, r4) =>
  match decList decString r4 with
  | none => none
  | some (public_keys, r5) =>
  match decList decVc r5 with
  | none => none
  | some (vcs, r6) =>
  match decOpt decString r6 with
  | none => none
  | some (bbs_private_key, r7) =>
  match decOpt decString r7 with
  | none => none
  | some (bbs_public_key, r8) =>
  match decOpt decBytes r8 with
  | none => none
  | some (active_nonce, r9) =>
  if r9 = [] then
    some { root_did := root_did, op_dids := op_dids, mpc_shard := mpc_shard
           group_metadata := group_metadata, public_keys := public_keys
           vcs := vcs, bbs_private_key := bbs_private_key
           bbs_public_key := bbs_public_key, active_nonce := active_nonce }
  else none

theorem decNat_encNat (n : Nat) (rest : List Nat) :
    decNat (encNat n ++ rest) = some (n, rest) := rfl

theorem decBool_encBool (b : Bool) (rest : List Nat) :
    decBool (encBool b ++ rest) = some (b, rest) := by
  cases b <;> rfl

theorem decCharsN_encChars (cs : List Char) (rest : List Nat) :
    decCharsN cs.length (cs.map Char.toNat ++ rest) = some (cs, rest) := by
  induction cs with
  | nil => rfl
  | cons c cs ih =>
    simp [decCharsN, ih, Char.ofNat_toNat]

theorem decString_encString (s : String) (rest : List Nat) :
    decString (encString s ++ rest) = some (s, rest) := by
  obtain ⟨cs⟩ := s
  have h := decCharsN_encChars cs rest
  simp [encString, encChars, decString, decNat, h]

theorem decOpt_encOpt (enc : α → List Nat) (dec : List Nat → Option (α × List Nat))
    (hdec : ∀ x rest, dec (enc x ++ rest) = some (x, rest))
    (o : Option α) (rest : List Nat) :
    decOpt dec (encOpt enc o ++ rest) = some (o, rest) := by
  cases o with
  | none => rfl
  | some x => simp [encOpt, decOpt, hdec]

theorem decCount_foldr (enc : α → List Nat) (dec : List Nat → Option (α × List Nat))
    (hdec : ∀ x rest, dec (enc x ++ rest) = some (x, rest))
    (xs : List α) (rest : List Nat) :
    decCount dec xs.length (xs.foldr (fun x acc => enc x ++ acc) [] ++ rest) =
      some (xs, rest) := by
  induction xs with
  | nil => rfl
  | cons x xs ih =>
    simp only [List.length_cons, List.foldr_cons, List.append_assoc, decCount, hdec]
    simp [ih]

theorem decList_encList (enc : α → List Nat) (dec : List Nat → Option (α × List Nat))
    (hdec : ∀ x rest, dec (enc x ++ rest) = some (x, rest))
    (xs : List α) (rest : List Nat) :
    decList dec (encList enc xs ++ rest) = some (xs, rest) := by
  have h := decCount_foldr enc dec hdec xs rest
  simp [encList, decList, decNat, h]

theorem decBytes_encBytes (xs : List Nat) (rest : List Nat) :
    decBytes (encBytes xs ++ rest) = some (xs, rest) :=
  decList_encList encNat decNat decNat_encNat xs rest

theorem decVc_encVc (vc : VcRecord) (rest : List Nat) :
    decVc (encVc vc ++ rest) = some (vc, rest) := by
  simp [encVc, decVc, decString_encString, decBool_encBool]

/-- Deserialization is a total left inverse of serialization: the plaintext
written by `store_record` is read back as the very same record. -/
theorem decodeRecord_encodeRecord (r : VaultRecord) :
    decodeRecord (encodeRecord r) = some r := by
  have hSl := decList_encList encString decString decString_encString
  have hSo := decOpt_encOpt encString decString decString_encString
  have hVl := decList_encList encVc decVc decVc_encVc
  have hBo := decOpt_encOpt encBytes decBytes decBytes_encBytes
  have hrw : encodeRecord r = encodeRecord r ++ [] := by simp
  rw [hrw]
  simp only [encodeRecord, List.append_assoc, decodeRecord,
    decString_encString, hSl, hSo, hVl, hBo, if_true]

/-- One `SealedBlob` of the simulated backend: ciphertext plus the 12-byte
nonce it was produced under. -/
structure SealedBlob where
  ciphertext : List Nat
  nonce : List Nat
deriving Repr, DecidableEq

/-- The simulated backend's store: vault id to sealed blob. -/
def SealedStore : Type := List (String × SealedBlob)

/-- `SimulatedTEEBackend::store_record`: serialize, encrypt under the process
key and the freshly drawn `nonce`, file the blob.  The cipher is the
parameter `encrypt : key → nonce → plaintext → ciphertext`. -/
def sim_store_record (encrypt : List Nat → List Nat → List Nat → List Nat)
    (key nonce : List Nat) (s : SealedStore) (vault_id : String) (r : VaultRecord) :
    SealedStore :=
  mapPut s vault_id { ciphertext := encrypt key nonce (encodeRecord r), nonce := nonce }

/-- `SimulatedTEEBackend::load_record`: look the blob up, decrypt it under
the stored nonce, deserialize.  `decrypt` returns `none` on authentication
failure. -/
def sim_load_record (decrypt : List Nat → List Nat → List Nat → Option (List Nat))
    (key : List Nat) (s : SealedStore) (vault_id : String) :
    Except String VaultRecord :=
  match mapGet s vault_id with
  | none => .error "Vault ID not found"
  | some blob =>
    match decrypt key blob.nonce blob.ciphertext with
    | none => .error "Decryption failed"
    | some plaintext =>
      match decodeRecord plaintext with
      | none => .error "Deserialization failed"
      | some r => .ok r

/-! ## Vault-side signing helpers (`engine/src/vault/signing.rs`)

`signing.rs` calls three vault accessors — `get_shard`, `set_nonce`,
`get_nonce` — that exist nowhere under `src/`; only this caller survives.
They are modelled from the spec (§4.5): the peer "loads its shard", seals the
fresh nonce "into its vault's `active_nonce` slot", and on `partial_sign`
"loads its shard and `active_nonce`, computes its signature share, and clears
the `active_nonce`"; a missing nonce is the `NoActiveNonce` error.  FROST and
serde primitives enter as the `SignCrypto` parameter record. -/

/-- Modelled from the spec: `get_shard` (missing from `src/`) resolves the
DID's vault through the registry and returns the stored `mpc_shard`. -/
def get_shard (reg : Registry) (store : VaultStore) (op_did : String) :
    Except String String :=
  match get_vault_id_for_operational_did reg op_did with
  | none => .error "DID not found"
  | some vault_id =>
    match load_record store vault_id with
    | .error e => .error e
    | .ok r =>
      match r.mpc_shard with
      | none => .error "No shard for DID"
      | some shard => .ok shard

/-- Modelled from the spec: `set_nonce` (missing from `src/`) seals the
serialized nonce into the record's `active_nonce` slot. -/
def set_nonce (reg : Registry) (store : VaultStore) (op_did : String)
    (nonce : List Nat) : Except String Unit × VaultStore :=
  match get_vault_id_for_operational_did reg op_did with
  | none => (.error "DID not found", store)
  | some vault_id =>
    match load_record store vault_id with
    | .error e => (.error e, store)
    | .ok r => (.ok (), store_record store vault_id { r with active_nonce := some nonce })

/-- Modelled from the spec: `get_nonce` (missing from `src/`) loads the
record's `active_nonce` and clears the slot — the spec's "loads … and clears
the `active_nonce`" — failing with `NoActiveNonce` when the slot is empty. -/
def get_nonce (reg : Registry) (store : VaultStore) (op_did : String) :
    Except String (List Nat) × VaultStore :=
  match get_vault_id_for_operational_did reg op_did with
  | none => (.error "DID not found", store)
  | some vault_id =>
    match load_record store vault_id with
    | .error e => (.error e, store)
    | .ok r =>
      match r.active_nonce with
      | none => (.error "NoActiveNonce", store)
      | some nonce =>
        (.ok nonce, store_record store vault_id { r with active_nonce := none })

/-- The cryptographic and serde primitives `partial_sign` delegates to,
as opaque parameters: base64, `SecretShare::deserialize`,
`bincode::deserialize::<SigningNonces>`, `Identifier::try_from`,
`NonceCommitment::deserialize`, and `frost::round2::sign`. -/
structure SignCrypto where
  b64decode : String → Option (List Nat)
  parseShare : List Nat → Option (List Nat)
  parseNonces : List Nat → Option (List Nat)
  parseId : String → Option (List Nat)
  parseCommitment : List Nat → Option (List Nat)
  signRound2 : List Nat → List Nat → List (List Nat × List Nat) → List Nat → Option (List Nat)

/-- The commitment-parsing loop of `partial_sign`: each peer id and raw
commitment must deserialize; the first failure aborts. -/
def parseCommitments (c : SignCrypto) :
    List (String × List Nat) → Option (List (List Nat × List Nat))
  | [] => some []
  | (peer_id, raw) :: rest =>
    match c.parseId peer_id with
    | none => none
    | some id =>
      match c.parseCommitment raw with
      | none => none
      | some commitment =>
        (parseCommitments c rest).map (fun l => (id, commitment) :: l)

/-- `partial_sign` from `vault/signing.rs` (named `part_sign` here), in the
source's evaluation order: load the shard, base64-decode it, deserialize it,
take the active nonce, deserialize it, parse the incoming commitments, then
sign.  Every failure path surfaces the source's error string, and the
returned store is the one current at that point — in particular the nonce
slot is cleared exactly when control reached `get_nonce`. -/
def part_sign (c : SignCrypto) (reg : Registry) (store : VaultStore)
    (op_did : String) (message : List Nat)
    (incoming_commitments : List (String × List Nat)) :
    Except String (List Nat) × VaultStore :=
  match get_shard reg store op_did with
  | .error e => (.error e, store)
  | .ok shard_b64 =>
  match c.b64decode shard_b64 with
  | none => (.error "bad base64", store)
  | some shard_bytes =>
  match c.parseShare shard_bytes with
  | none => (.error "bad shard", store)
  | some share =>
  match get_nonce reg store op_did with
  | (.error e, store') => (.error e, store')
  | (.ok nonce_bytes, store') =>
  match c.parseNonces nonce_bytes with
  | none => (.error "bad nonce format", store')
  | some nonces =>
  match parseCommitments c incoming_commitments with
  | none => (.error "bad commitment", store')
  | some commitments =>
  match c.signRound2 message share commitments nonces with
  | none => (.error "signing failed", store')
  | some sig => (.ok sig, store')

/-! ## MPC signing coordinator (`engine/src/mpc/coordinator.rs`,
`engine/src/mpc/signing_session.rs`)

`MPCSigningCoordinator::sign` fans RPCs out to peers; the two per-peer RPCs
(`call_generate_nonce`, `call_partial_sign`) are modelled as response
functions `String → Option (List Nat)` (`none` = the RPC failed), and the
per-call trace of contacted peers is returned alongside the result so that
cohort-selection claims are about an observable of the model. -/

/-- `SigningSession` (in-memory signing bookkeeping).  The Rust
`partial_signatures` map is the `part_sigs` field. -/
structure SigningSession where
  operational_did : String
  message : List Nat
  group_id : String
  nonce_commitments : List (String × List Nat)
  part_sigs : List (String × List Nat)
  threshold : Nat
deriving Repr, DecidableEq

/-- `SigningSession::new`: load the descriptor, start with empty maps. -/
def SigningSession.new (reg : Registry) (op_did : String) (message : List Nat) :
    Except String SigningSession :=
  match get_mpc_group reg op_did with
  | none => .error "No MPC group descriptor found"
  | some descriptor =>
    .ok { operational_did := op_did
          message := message
          group_id := descriptor.group_id
          nonce_commitments := []
          part_sigs := []
          threshold := descriptor.threshold }

/-- `SigningSession::record_commitment`. -/
def SigningSession.record_commitment (s : SigningSession) (peer_id : String)
    (commitment : List Nat) : SigningSession :=
  { s with nonce_commitments := mapPut s.nonce_commitments peer_id commitment }

/-- `SigningSession::record_partial` (named `record_share` here). -/
def SigningSession.record_share (s : SigningSession) (peer_id : String)
    (sig : List Nat) : SigningSession :=
  { s with part_sigs := mapPut s.part_sigs peer_id sig }

/-- `SigningSession::ready_to_aggregate`. -/
def SigningSession.ready_to_aggregate (s : SigningSession) : Bool :=
  s.threshold ≤ s.part_sigs.length

/-- STEP 3 of `sign`: call `generate_nonce` on every peer in order, recording
commitments; an RPC failure aborts the loop.  Also returns the peers
contacted, in order. -/
def runNonceCalls (resp : String → Option (List Nat)) :
    SigningSession → List String → (Except String SigningSession) × List String
  | sess, [] => (.ok sess, [])
  | sess, peer :: rest =>
    match resp peer with
    | none => (.error "RPC failed", [peer])
    | some nonce =>
      let out := runNonceCalls resp (sess.record_commitment peer nonce) rest
      (out.1, peer :: out.2)

/-- STEP 4 of `sign`: call `partial_sign` on every peer in order, recording
signature shares; an RPC failure aborts the loop. -/
def runSignCalls (resp : String → Option (List Nat)) :
    SigningSession → List String → (Except String SigningSession) × List String
  | sess, [] => (.ok sess, [])
  | sess, peer :: rest =>
    match resp peer with
    | none => (.error "RPC failed", [peer])
    | some sig =>
      let out := runSignCalls resp (sess.record_share peer sig) rest
      (out.1, peer :: out.2)

/-- `MPCSigningCoordinator::sign`: load the group, build the participant list
from ALL members, run the nonce round over it, run the signing round over it,
check `ready_to_aggregate`, aggregate (abstracted as `aggregateFn`, which
covers `aggregate_signature`/`recover_group_key`).  The second component is
the full contact trace: nonce-round calls followed by signing-round calls. -/
def coordinator_sign (reg : Registry)
    (nonceResp signResp : String → Option (List Nat))
    (aggregateFn : List (String × List Nat) → List Nat → MPCGroupDescriptor →
      Option (List Nat))
    (op_did : String) (message : List Nat) :
    Except String (List Nat) × List String :=
  match get_mpc_group reg op_did with
  | none => (.error "No MPC group for DID", [])
  | some group =>
    let participants := group.members.map (·.custody_node_id)
    match SigningSession.new reg op_did message with
    | .error e => (.error e, [])
    | .ok session =>
      match runNonceCalls nonceResp session participants with
      | (.error e, trace₁) => (.error e, trace₁)
      | (.ok session₁, trace₁) =>
        match runSignCalls signResp session₁ participants with
        | (.error e, trace₂) => (.error e, trace₁ ++ trace₂)
        | (.ok session₂, trace₂) =>
          if session₂.ready_to_aggregate then
            match aggregateFn session₂.part_sigs session₂.message group with
            | none => (.error "Aggregation failed", trace₁ ++ trace₂)
            | some sig => (.ok sig, trace₁ ++ trace₂)
          else (.error "Not enough signature shares collected", trace₁ ++ trace₂)

/-! ## DKG engine (`engine/src/dkg/dkg_engine.rs`, `engine/src/dkg/types.rs`) -/

/-- `DKGMessage`: the tagged round payloads exchanged between nodes. -/
inductive DKGMessage where
  | round1 (raw : List Nat)
  | round2 (raw : List Nat)
  | finalization (raw : List Nat)
deriving Repr, DecidableEq

/-- `DKGError`.  `types.rs` declares the first six variants;
`dkg_engine.rs::finalize` additionally returns `VaultNotFound`, carried here
too. -/
inductive DKGError where
  | sessionAlreadyExists
  | sessionNotFound
  | messageMalformed
  | cryptoFailure (msg : String)
  | registryUpdateFailed
  | vaultStorageFailed
  | vaultNotFound
deriving Repr, DecidableEq

/-- `DKGLocalState`.  The `KeyGenMachine` protocol state is an opaque token
(`List Nat`); only its presence/absence steers the engine's control flow. -/
structure DKGLocalState where
  operational_did : String
  threshold : Nat
  participant_ids : List String
  round1_received : List (String × List Nat)
  round2_received : List (String × List Nat)
  finalized : Bool
  keygen_machine : Option (List Nat)
deriving Repr, DecidableEq

/-- `DKGSession` (the Rust field `local` is `localState` here; `local` is a
Lean keyword). -/
structure DKGSession where
  group_id : String
  localState : DKGLocalState
deriving Repr, DecidableEq

/-- The engine's session table. -/
def DKGSessions : Type := List (String × DKGSession)

/-- `DKGEngine::handle_message`: deserialize the message
(`decode` stands for `bincode::deserialize::<DKGMessage>`), find the session,
and store the payload under the sender's id with `HashMap::insert` — which
REPLACES any package previously received from that sender for that round.
`Finalization` payloads fall into the source's `_ => {}` arm.  The audit
tracker is passed through untouched: the source logs nothing here. -/
def handle_message (decode : List Nat → Option DKGMessage)
    (sessions : DKGSessions) (audit : AuditTracker)
    (group_id from_node : String) (msg : List Nat) :
    Except DKGError Unit × DKGSessions × AuditTracker :=
  match decode msg with
  | none => (.error .messageMalformed, sessions, audit)
  | some dkg_msg =>
    match mapGet sessions group_id with
    | none => (.error .sessionNotFound, sessions, audit)
    | some session =>
      let session' :=
        match dkg_msg with
        | .round1 raw =>
          { session with localState :=
            { session.localState with
              round1_received := mapPut session.localState.round1_received from_node raw } }
        | .round2 raw =>
          { session with localState :=
            { session.localState with
              round2_received := mapPut session.localState.round2_received from_node raw } }
        | .finalization _ => session
      (.ok (), mapPut sessions group_id session', audit)

/-- The primitives `finalize` delegates to, as opaque parameters:
`bincode::deserialize::<Round2Package>`, `Identifier::try_from` (whose result
the source unwraps, hence total here), `KeyGenMachine::finish` returning the
secret shard together with the `(node_id, public_share_b64)` member list, and
`base64::encode`. -/
structure DKGCrypto where
  parseRound2 : List Nat → Option (List Nat)
  idOf : String → List Nat
  finish : List Nat → List (List Nat × List Nat) → Option (List Nat × List (String × String))
  b64encode : List Nat → String

/-- The round-2 collection loop of `finalize`: deserialize every buffered
package, pairing it with its sender's identifier; the first malformed package
aborts. -/
def collectRound2 (c : DKGCrypto) :
    List (String × List Nat) → Option (List (List Nat × List Nat))
  | [] => some []
  | (peer_id, raw) :: rest =>
    match c.parseRound2 raw with
    | none => none
    | some pkg => (collectRound2 c rest).map (fun l => (c.idOf peer_id, pkg) :: l)

/-- `DKGEngine::finalize`: REMOVE the session from the table (this happens
first, and on every path the session stays removed), require the machine
state, parse the round-2 packages, finish the key generation, resolve the
DID's vault id through the registry, seal the shard with `vault::add_shard`,
then write the group descriptor with `set_mpc_group`.  The source constructs
each `MPCMemberDescriptor` with only `node_id` and `public_share`; the
remaining declared fields are defaulted here.  No failure path restores the
session, deletes a written shard, or touches the registry. -/
def finalize (c : DKGCrypto) (sessions : DKGSessions) (reg : Registry)
    (store : VaultStore) (group_id : String) :
    Except DKGError (List Nat) × DKGSessions × VaultStore × Registry :=
  match mapGet sessions group_id with
  | none => (.error .sessionNotFound, sessions, store, reg)
  | some session =>
    let sessions' := mapDrop sessions group_id
    match session.localState.keygen_machine with
    | none => (.error (.cryptoFailure "No state"), sessions', store, reg)
    | some machine =>
    match collectRound2 c session.localState.round2_received with
    | none => (.error .messageMalformed, sessions', store, reg)
    | some received =>
    match c.finish machine received with
    | none => (.error (.cryptoFailure "Finalize failed"), sessions', store, reg)
    | some (shard, pubkeys) =>
    match get_vault_id_for_operational_did reg session.localState.operational_did with
    | none => (.error .vaultNotFound, sessions', store, reg)
    | some vault_id =>
    match add_shard store vault_id (c.b64encode shard) with
    | (.error _, store') => (.error .vaultStorageFailed, sessions', store', reg)
    | (.ok _, store') =>
      let mpc_group : MPCGroupDescriptor :=
        { group_id := group_id
          members := pubkeys.map (fun p =>
            { vault_reference := ""
              custody_node_id := p.1
              shard_index := 0
              public_share := p.2 })
          threshold := session.localState.threshold
          dkg_protocol := some "frost-ed25519-dkg-v1"
          session_state := none }
      match set_mpc_group reg session.localState.operational_did mpc_group with
      | (.error _, reg') => (.error .registryUpdateFailed, sessions', store', reg')
      | (.ok _, reg') => (.ok shard, sessions', store', reg')

/-! ## Claim theorems -/

/-- One `log` call preserves the capacity bound, provided the capacity is
positive. -/
theorem audit_log_length_le (t : AuditTracker) (r : AuditRecord)
    (hm : 1 ≤ t.max_entries) (h : t.records.length ≤ t.max_entries) :
    (t.log r).records.length ≤ t.max_entries := by
  simp only [AuditTracker.log, List.length_append, List.length_cons, List.length_nil]
  by_cases hl : t.records.length = t.max_entries
  · rw [if_pos hl]
    simp only [List.length_tail]
    omega
  · rw [if_neg hl]
    omega

/-- `log` never changes the configured capacity. -/
theorem audit_log_max_entries (t : AuditTracker) (r : AuditRecord) :
    (t.log r).max_entries = t.max_entries := rfl

/-- Neither does a whole sequence of `log` calls. -/
theorem audit_foldl_max_entries (evs : List AuditRecord) (t : AuditTracker) :
    (evs.foldl AuditTracker.log t).max_entries = t.max_entries := by
  induction evs generalizing t with
  | nil => rfl
  | cons e evs ih => simpa [List.foldl_cons, audit_log_max_entries] using ih (t.log e)

/-- The capacity bound is an invariant of arbitrary `log` sequences. -/
theorem audit_foldl_length_le (evs : List AuditRecord) (t : AuditTracker)
    (hm : 1 ≤ t.max_entries) (h : t.records.length ≤ t.max_entries) :
    (evs.foldl AuditTracker.log t).records.length ≤ t.max_entries := by
  induction evs generalizing t with
  | nil => exact h
  | cons e evs ih =>
    simp only [List.foldl_cons]
    have := ih (t.log e) hm (audit_log_length_le t e hm h)
    simpa [audit_log_max_entries] using this

/-- C8: The audit log is a bounded FIFO — as stated this fails for the
configurable capacity 0 (see the counterexample); amended to capacities of at
least 1, which includes the global tracker's default 500: after any sequence
of `log` calls starting from `AuditTracker::new(m)` the length never exceeds
`m`; a `log` on a full tracker drops the oldest record (the deque's front)
and appends the new one at the back; and `recent(n)` is the snapshot of the
`n` most recent records in reverse chronological order. -/
theorem audit_tracker_bounded_fifo (m : Nat) (hm : 1 ≤ m) (evs : List AuditRecord) :
    ((evs.foldl AuditTracker.log (AuditTracker.new m)).records.length ≤ m)
    ∧ (∀ t : AuditTracker, ∀ r : AuditRecord, t.max_entries = m →
        (t.records.length = m → (t.log r).records = t.records.tail ++ [r])
        ∧ (t.records.length ≠ m → (t.log r).records = t.records ++ [r]))
    ∧ (∀ t : AuditTracker, ∀ n : Nat,
        t.recent n = (t.records.drop (t.records.length - n)).reverse) := by
  refine ⟨?_, ?_, ?_⟩
  · exact audit_foldl_length_le evs (AuditTracker.new m) hm (by simp [AuditTracker.new])
  · intro t r ht
    constructor
    · intro hl
      have hcond : t.records.length = t.max_entries := by rw [hl, ht]
      simp only [AuditTracker.log, if_pos hcond]
    · intro hl
      have hcond : t.records.length ≠ t.max_entries := by rw [ht]; exact hl
      simp only [AuditTracker.log, if_neg hcond]
  · intro t n
    unfold AuditTracker.recent
    rw [List.take_reverse]

/-- Witness for C8: the amended bounded-FIFO theorem applied at capacity 1
and a concrete two-event history. -/
theorem audit_tracker_bounded_fifo_witness :
    1 ≤ 1 ∧
    ((([{ event_type := .keygen, session_id := "s1", participant_id := none,
          message := "m1", timestamp := "t1" },
        { event_type := .error, session_id := "s2", participant_id := some 2,
          message := "m2", timestamp := "t2" }] :
        List AuditRecord).foldl AuditTracker.log (AuditTracker.new 1)).records.length ≤ 1)
    ∧ (∀ t : AuditTracker, ∀ r : AuditRecord, t.max_entries = 1 →
        (t.records.length = 1 → (t.log r).records = t.records.tail ++ [r])
        ∧ (t.records.length ≠ 1 → (t.log r).records = t.records ++ [r]))
    ∧ (∀ t : AuditTracker, ∀ n : Nat,
        t.recent n = (t.records.drop (t.records.length - n)).reverse) := by
  refine ⟨by decide, ?_⟩
  exact audit_tracker_bounded_fifo 1 (by decide)
    [{ event_type := .keygen, session_id := "s1", participant_id := none,
       message := "m1", timestamp := "t1" },
     { event_type := .error, session_id := "s2", participant_id := some 2,
       message := "m2", timestamp := "t2" }]

/-- Counterexample for C8 as frozen: with the configurable maximum set to 0,
a single `log` call leaves 1 > 0 records in the deque, so the length DOES
exceed the configured maximum. -/
theorem audit_tracker_capacity_zero_exceeded :
    ¬ (((AuditTracker.new 0).log
        { event_type := .error, session_id := "s", participant_id := none,
          message := "m", timestamp := "t" }).records.length ≤
        (AuditTracker.new 0).max_entries) := by
  decide

/-- A concrete registry entry used to evaluate `rotate_operational_did`. -/
def c1Entry : OperationalDIDEntry :=
  { root_did_hash := "roothash:aa"
    vault_id := "vault-1"
    mpc_group := none
    audit_trail := []
    did_document := some [123] }

/-- C1 (code bug, evaluated at the failing input): on the registry that binds
only `did:op:a`, `rotate_operational_did("did:op:a", "did:op:b")` returns
`Ok(())` and afterwards BOTH DIDs are unbound — the removed entry is dropped
on the floor instead of being re-inserted under the new DID, so the lookup of
`did:op:b` yields `NotFound` rather than the former entry of `did:op:a`.
Moreover, on a registry where the new DID is already bound the call still
returns `Ok(())` instead of failing with `AlreadyExists`. -/
theorem rotate_operational_did_loses_entry :
    ((rotate_operational_did [("did:op:a", c1Entry)] (AuditTracker.new 500)
        "did:op:a" "did:op:b" "2026-01-01T00:00:00Z").1 = .ok ()
    ∧ mapGet (rotate_operational_did [("did:op:a", c1Entry)] (AuditTracker.new 500)
        "did:op:a" "did:op:b" "2026-01-01T00:00:00Z").2.1 "did:op:a" = none
    ∧ mapGet (rotate_operational_did [("did:op:a", c1Entry)] (AuditTracker.new 500)
        "did:op:a" "did:op:b" "2026-01-01T00:00:00Z").2.1 "did:op:b" = none)
    ∧ (rotate_operational_did [("did:op:a", c1Entry), ("did:op:b", c1Entry)]
        (AuditTracker.new 500) "did:op:a" "did:op:b" "2026-01-01T00:00:00Z").1
        = .ok () :=
  ⟨⟨rfl, rfl, rfl⟩, rfl⟩

set_option maxRecDepth 10000 in
/-- Counterexample for C7 as frozen: the filename `shard_2.bin.bin` does not
match `shard_<u8>.bin`, yet `validate_shard_filename` accepts it with
participant id 2 — `trim_end_matches(".bin")` strips EVERY trailing `.bin`
repetition, not one. -/
theorem validate_shard_filename_extra_bin_accepted :
    validate_shard_filename "shard_2.bin.bin".data = some 2
    ∧ matchesSpecShardName "shard_2.bin.bin".data = false := by
  decide

set_option maxRecDepth 10000 in
/-- C7 amended: `validate_shard_filename` accepts `shard_<u8>.bin` (returning
the parsed participant id) for every `u8`, and rejects `shard_two.bin`,
`shard_2.json` and `key_2.bin`; but the accepted language is wider than
`shard_<u8>.bin` — any positive number of trailing `.bin` repetitions is
accepted (e.g. `shard_2.bin.bin`, see the counterexample), and rejection is
by the source's `IOError` kind rather than an `InvalidArgument` variant. -/
theorem validate_shard_filename_characterization :
    (∀ n : Nat, n < 256 →
      validate_shard_filename ("shard_".data ++ (Nat.repr n).data ++ ".bin".data) = some n)
    ∧ validate_shard_filename "shard_2.bin".data = some 2
    ∧ validate_shard_filename "shard_two.bin".data = none
    ∧ validate_shard_filename "shard_2.json".data = none
    ∧ validate_shard_filename "key_2.bin".data = none := by
  refine ⟨by decide, by decide, by decide, by decide, by decide⟩

set_option maxRecDepth 10000 in
/-- Witness for C7: the bounded quantifier of the amended theorem discharged
at the concrete id 2. -/
theorem validate_shard_filename_characterization_witness :
    validate_shard_filename ("shard_".data ++ (Nat.repr 2).data ++ ".bin".data) = some 2 :=
  validate_shard_filename_characterization.1 2 (by decide)

/-- C3: On the simulated-enclave backend, `store_record(v, r)` followed by
`load_record(v)` returns exactly `r`, for every record `r`, every prior store
content, every key and nonce, and every cipher satisfying the
decrypt-of-encrypt law of authenticated encryption (which AES-256-GCM
provides): unseal after seal is the identity on records. -/
theorem sim_store_load_roundtrip
    (encrypt : List Nat → List Nat → List Nat → List Nat)
    (decrypt : List Nat → List Nat → List Nat → Option (List Nat))
    (hcipher : ∀ k n m, decrypt k n (encrypt k n m) = some m)
    (key nonce : List Nat) (s : SealedStore) (vault_id : String) (r : VaultRecord) :
    sim_load_record decrypt key
      (sim_store_record encrypt key nonce s vault_id r) vault_id = .ok r := by
  unfold sim_store_record sim_load_record
  rw [mapGet_mapPut_self]
  simp only [hcipher, decodeRecord_encodeRecord]

/-- A concrete, fully populated record for evaluating the C3 roundtrip. -/
def c3Record : VaultRecord :=
  { root_did := "did:root:example"
    op_dids := ["did:op:a", "did:op:b"]
    mpc_shard := some "c2hhcmQ="
    group_metadata := none
    public_keys := ["pk1"]
    vcs := [{ vc_id := "vc-1", vc_json := "jsonA", is_revoked := false },
            { vc_id := "vc-2", vc_json := "jsonB", is_revoked := true }]
    bbs_private_key := none
    bbs_public_key := some "bbspk"
    active_nonce := some [1, 2, 3] }

/-- Witness for C3: the roundtrip theorem applied with a concrete cipher
satisfying the hypothesis (the identity cipher) at a concrete record. -/
theorem sim_store_load_roundtrip_witness :
    (∀ k n m, (fun (_ _ : List Nat) (c : List Nat) => some c) k n
        ((fun (_ _ : List Nat) (p : List Nat) => p) k n m) = some m)
    ∧ sim_load_record (fun _ _ c => some c) [0]
        (sim_store_record (fun _ _ p => p) [0] [9, 9] [] "vault-w" c3Record)
        "vault-w" = .ok c3Record :=
  ⟨fun _ _ _ => rfl,
   sim_store_load_roundtrip (fun _ _ p => p) (fun _ _ c => some c)
     (fun _ _ _ => rfl) [0] [9, 9] [] "vault-w" c3Record⟩

/-- C9: When the stored record of `vault_id` already contains a credential
with id `vc_id`, `add_vc` returns the duplicate-id error and the store it
returns is the unchanged input store — no entry is appended and no field of
any record is modified. -/
theorem add_vc_duplicate_rejected (s : VaultStore) (vault_id vc_id vc_json : String)
    (r : VaultRecord) (hload : mapGet s vault_id = some r)
    (vc : VcRecord) (hmem : vc ∈ r.vcs) (hid : vc.vc_id = vc_id) :
    add_vc s vault_id vc_id vc_json = (.error "VC ID already exists", s) := by
  unfold add_vc load_record
  rw [hload]
  have hany : r.vcs.any (fun v => v.vc_id = vc_id) = true := by
    rw [List.any_eq_true]
    exact ⟨vc, hmem, by simp [hid]⟩
  simp [hany]

/-- A one-record store for evaluating `add_vc` and `revoke_vc`. -/
def c9Store : VaultStore :=
  [("vault-9",
    { root_did := "did:root:x"
      op_dids := ["did:op:x"]
      mpc_shard := none
      group_metadata := none
      public_keys := []
      vcs := [{ vc_id := "vc-1", vc_json := "jsonOld", is_revoked := false }]
      bbs_private_key := none
      bbs_public_key := none
      active_nonce := none })]

/-- Witness for C9: the duplicate-rejection theorem applied to a concrete
store whose record already holds `vc-1`. -/
theorem add_vc_duplicate_rejected_witness :
    add_vc c9Store "vault-9" "vc-1" "jsonNew" = (.error "VC ID already exists", c9Store) :=
  add_vc_duplicate_rejected c9Store "vault-9" "vc-1" "jsonNew"
    { root_did := "did:root:x"
      op_dids := ["did:op:x"]
      mpc_shard := none
      group_metadata := none
      public_keys := []
      vcs := [{ vc_id := "vc-1", vc_json := "jsonOld", is_revoked := false }]
      bbs_private_key := none
      bbs_public_key := none
      active_nonce := none }
    (by decide)
    { vc_id := "vc-1", vc_json := "jsonOld", is_revoked := false }
    (by decide) (by decide)

/-- `revokeFirst` on a list that first matches at `vc` flags exactly that
occurrence. -/
theorem revokeFirst_append (pre post : List VcRecord) (vc : VcRecord) (v : String)
    (hvc : vc.vc_id = v) (hpre : ∀ y ∈ pre, y.vc_id ≠ v) :
    revokeFirst (pre ++ vc :: post) v =
      some (pre ++ { vc with is_revoked := true } :: post) := by
  induction pre with
  | nil => simp [revokeFirst, hvc]
  | cons y ys ih =>
    have hy : ¬ (y.vc_id = v) := hpre y (List.mem_cons_self y ys)
    have ih' := ih (fun z hz => hpre z (List.mem_cons_of_mem y hz))
    simp [revokeFirst, hy, ih']

/-- A store whose record carries TWO credentials with the same id, as
`store_record` happily accepts. -/
def c10Store : VaultStore :=
  [("vault-10",
    { root_did := "did:root:y"
      op_dids := []
      mpc_shard := none
      group_metadata := none
      public_keys := []
      vcs := [{ vc_id := "cred", vc_json := "j1", is_revoked := false },
              { vc_id := "cred", vc_json := "j2", is_revoked := false }]
      bbs_private_key := none
      bbs_public_key := none
      active_nonce := none })]

/-- Counterexample for C10 as frozen: on a record holding two credentials
with id `cred`, `revoke_vc` flags only the first, and `get_vc` afterwards
still SUCCEEDS (returning the second, unrevoked duplicate) instead of
failing. -/
theorem revoke_vc_duplicate_get_vc_still_succeeds :
    (revoke_vc c10Store "vault-10" "cred").1 = .ok ()
    ∧ get_vc (revoke_vc c10Store "vault-10" "cred").2 "vault-10" "cred" = .ok "j2" :=
  ⟨rfl, rfl⟩

/-- C10 amended: for a record in which exactly one credential bears id `v`
(the invariant `add_vc` maintains; duplicates laid down directly through
`store_record` defeat it, see the counterexample), `revoke_vc` succeeds and
stores the record with only that credential's `is_revoked` flag set to true —
its `vc_json`, every other credential, and all other fields unchanged;
afterwards `get_vc` fails with the not-found-or-revoked error, while
`delete_vc` still finds the entry, removes exactly it, and succeeds. -/
theorem revoke_vc_unique_id_flags_only_that_credential
    (s : VaultStore) (vault_id v : String) (r : VaultRecord)
    (pre post : List VcRecord) (vc : VcRecord)
    (hload : mapGet s vault_id = some r)
    (hsplit : r.vcs = pre ++ vc :: post)
    (hvc : vc.vc_id = v)
    (hpre : ∀ y ∈ pre, y.vc_id ≠ v)
    (hpost : ∀ y ∈ post, y.vc_id ≠ v) :
    revoke_vc s vault_id v =
      (.ok (), store_record s vault_id
        { r with vcs := pre ++ { vc with is_revoked := true } :: post })
    ∧ get_vc (revoke_vc s vault_id v).2 vault_id v = .error "VC not found or revoked"
    ∧ delete_vc (revoke_vc s vault_id v).2 vault_id v =
        (.ok (), store_record (revoke_vc s vault_id v).2 vault_id
          { r with vcs := pre ++ post }) := by
  have hrev : revoke_vc s vault_id v =
      (.ok (), store_record s vault_id
        { r with vcs := pre ++ { vc with is_revoked := true } :: post }) := by
    unfold revoke_vc load_record
    simp only [hload]
    rw [hsplit, revokeFirst_append pre post vc v hvc hpre]
  refine ⟨hrev, ?_, ?_⟩
  · rw [hrev]
    unfold get_vc load_record store_record
    rw [mapGet_mapPut_self]
    have hfind : (pre ++ { vc with is_revoked := true } :: post).find?
        (fun x => x.vc_id = v && !x.is_revoked) = none := by
      rw [List.find?_eq_none]
      intro x hx
      rcases List.mem_append.mp hx with hx | hx
      · simp [hpre x hx]
      · rcases List.mem_cons.mp hx with hx | hx
        · subst hx
          simp
        · simp [hpost x hx]
    simp [hfind]
  · rw [hrev]
    unfold delete_vc load_record store_record
    rw [mapGet_mapPut_self]
    have h1 : pre.filter (fun x => x.vc_id ≠ v) = pre := by
      rw [List.filter_eq_self]
      intro x hx
      simp [hpre x hx]
    have h3 : post.filter (fun x => !decide (x.vc_id = v)) = post := by
      rw [List.filter_eq_self]
      intro x hx
      simp [hpost x hx]
    have hfilter : (pre ++ { vc with is_revoked := true } :: post).filter
        (fun x => x.vc_id ≠ v) = pre ++ post := by
      rw [List.filter_append, h1, List.filter_cons]
      simp [hvc, h3]
    have hlen : ¬ ((pre ++ post).length =
        (pre ++ { vc with is_revoked := true } :: post).length) := by
      simp only [List.length_append, List.length_cons]
      omega
    simp only [hfilter]
    rw [if_neg hlen]

/-- The unique-id prefix for the C10 witness store. -/
def c10wPre : List VcRecord := [{ vc_id := "other", vc_json := "jo", is_revoked := false }]

/-- The credential revoked in the C10 witness. -/
def c10wVc : VcRecord := { vc_id := "cred", vc_json := "jc", is_revoked := false }

/-- The record of the C10 witness store. -/
def c10wRec : VaultRecord :=
  { root_did := "rd"
    op_dids := []
    mpc_shard := none
    group_metadata := none
    public_keys := []
    vcs := c10wPre ++ c10wVc :: []
    bbs_private_key := none
    bbs_public_key := none
    active_nonce := none }

/-- The C10 witness store. -/
def c10wStore : VaultStore := [("vault-w10", c10wRec)]

/-- Witness for C10: the amended revocation theorem applied to a concrete
store whose record holds `other` and a single `cred` credential. -/
theorem revoke_vc_unique_id_flags_only_that_credential_witness :
    revoke_vc c10wStore "vault-w10" "cred" =
      (.ok (), store_record c10wStore "vault-w10"
        { c10wRec with vcs := c10wPre ++ { c10wVc with is_revoked := true } :: [] })
    ∧ get_vc (revoke_vc c10wStore "vault-w10" "cred").2 "vault-w10" "cred" =
        .error "VC not found or revoked"
    ∧ delete_vc (revoke_vc c10wStore "vault-w10" "cred").2 "vault-w10" "cred" =
        (.ok (), store_record (revoke_vc c10wStore "vault-w10" "cred").2 "vault-w10"
          { c10wRec with vcs := c10wPre ++ [] }) :=
  revoke_vc_unique_id_flags_only_that_credential c10wStore "vault-w10" "cred"
    c10wRec c10wPre [] c10wVc rfl rfl rfl (by decide) (by decide)

/-- Trivial crypto parameters: every decode fails.  `part_sign` errors before
any of them run in the C2 counterexample. -/
def c2Crypto : SignCrypto :=
  { b64decode := fun _ => none
    parseShare := fun _ => none
    parseNonces := fun _ => none
    parseId := fun _ => none
    parseCommitment := fun _ => none
    signRound2 := fun _ _ _ _ => none }

/-- A record with an `active_nonce` present but no shard. -/
def c2Rec : VaultRecord :=
  { root_did := "did:root:c2"
    op_dids := ["did:op:c2"]
    mpc_shard := none
    group_metadata := none
    public_keys := []
    vcs := []
    bbs_private_key := none
    bbs_public_key := none
    active_nonce := some [9] }

/-- Vault store of the C2 counterexample. -/
def c2Store : VaultStore := [("vault-2", c2Rec)]

/-- Registry of the C2 counterexample. -/
def c2Reg : Registry :=
  [("did:op:c2",
    { root_did_hash := "roothash:bb"
      vault_id := "vault-2"
      mpc_group := none
      audit_trail := []
      did_document := none })]

/-- Counterexample for C2 as frozen: on a record whose `active_nonce` is
present but whose shard is absent, `partial_sign` fails at the shard-loading
step, BEFORE the nonce is touched — the call returns an error and the stored
`active_nonce` survives un-consumed, contradicting "consumes the active_nonce
regardless of whether the call returns a signature share or an error". -/
theorem part_sign_early_error_keeps_nonce :
    part_sign c2Crypto c2Reg c2Store "did:op:c2" [1] [] =
      (.error "No shard for DID", c2Store)
    ∧ (mapGet c2Store "vault-2").bind (fun r => r.active_nonce) = some [9] :=
  ⟨rfl, rfl⟩

/-- C2 amended: once `partial_sign` gets past the shard steps — the record
exists, its shard is present, base64-decodes and deserializes — the
`active_nonce` is consumed no matter how the remaining steps turn out: the
stored record afterwards is exactly the old one with `active_nonce := none`,
and a second `partial_sign` on that state fails with `NoActiveNonce` leaving
the store unchanged, so each nonce is used for at most one signature.
Failures in the shard steps themselves, however, return with the nonce still
in place (see the counterexample). -/
theorem part_sign_consumes_nonce_after_shard_load
    (c : SignCrypto) (reg : Registry) (store : VaultStore)
    (op_did : String) (message : List Nat) (incoming : List (String × List Nat))
    (vault_id : String) (r : VaultRecord) (shard : String)
    (sb sh nb : List Nat)
    (hvid : get_vault_id_for_operational_did reg op_did = some vault_id)
    (hrec : mapGet store vault_id = some r)
    (hshard : r.mpc_shard = some shard)
    (hb64 : c.b64decode shard = some sb)
    (hshare : c.parseShare sb = some sh)
    (hnonce : r.active_nonce = some nb) :
    mapGet (part_sign c reg store op_did message incoming).2 vault_id =
      some { r with active_nonce := none }
    ∧ part_sign c reg (part_sign c reg store op_did message incoming).2
        op_did message incoming =
      (.error "NoActiveNonce", (part_sign c reg store op_did message incoming).2) := by
  have hshard_ok : get_shard reg store op_did = .ok shard := by
    unfold get_shard load_record
    simp only [hvid, hrec, hshard]
  have hnonce_ok : get_nonce reg store op_did =
      (.ok nb, store_record store vault_id { r with active_nonce := none }) := by
    unfold get_nonce load_record
    simp only [hvid, hrec, hnonce]
  have hpost : (part_sign c reg store op_did message incoming).2 =
      store_record store vault_id { r with active_nonce := none } := by
    unfold part_sign
    simp only [hshard_ok, hb64, hshare, hnonce_ok]
    cases hpn : c.parseNonces nb with
    | none => simp
    | some nonces =>
      cases hpc : parseCommitments c incoming with
      | none => simp
      | some comm =>
        cases hsg : c.signRound2 message sh comm nonces with
        | none => simp [hsg]
        | some sig => simp [hsg]
  have hrec' : mapGet (store_record store vault_id { r with active_nonce := none })
      vault_id = some { r with active_nonce := none } := by
    unfold store_record
    exact mapGet_mapPut_self store vault_id _
  have hshard2 : get_shard reg
      (store_record store vault_id { r with active_nonce := none }) op_did = .ok shard := by
    unfold get_shard load_record
    simp only [hvid, hrec']
    rw [hshard]
  have hnonce2 : get_nonce reg
      (store_record store vault_id { r with active_nonce := none }) op_did =
      (.error "NoActiveNonce",
        store_record store vault_id { r with active_nonce := none }) := by
    unfold get_nonce load_record
    simp only [hvid, hrec']
  have hcall2 : part_sign c reg
      (store_record store vault_id { r with active_nonce := none })
      op_did message incoming =
      (.error "NoActiveNonce",
        store_record store vault_id { r with active_nonce := none }) := by
    unfold part_sign
    simp only [hshard2, hb64, hshare, hnonce2]
  constructor
  · rw [hpost]
    exact hrec'
  · rw [hpost, hcall2]

/-- Crypto parameters for the C2 witness: every primitive succeeds. -/
def c2wCrypto : SignCrypto :=
  { b64decode := fun _ => some [1]
    parseShare := fun _ => some [2]
    parseNonces := fun _ => some [3]
    parseId := fun _ => some [4]
    parseCommitment := fun _ => some [5]
    signRound2 := fun _ _ _ _ => some [6] }

/-- Record of the C2 witness: shard and nonce both present. -/
def c2wRec : VaultRecord :=
  { root_did := "did:root:w2"
    op_dids := ["did:op:w2"]
    mpc_shard := some "c2hhcmQ"
    group_metadata := none
    public_keys := []
    vcs := []
    bbs_private_key := none
    bbs_public_key := none
    active_nonce := some [9] }

/-- Vault store of the C2 witness. -/
def c2wStore : VaultStore := [("vault-w2", c2wRec)]

/-- Registry of the C2 witness. -/
def c2wReg : Registry :=
  [("did:op:w2",
    { root_did_hash := "roothash:cc"
      vault_id := "vault-w2"
      mpc_group := none
      audit_trail := []
      did_document := none })]

/-- Witness for C2: the nonce-consumption theorem applied on a concrete state
where the shard steps succeed. -/
theorem part_sign_consumes_nonce_after_shard_load_witness :
    mapGet (part_sign c2wCrypto c2wReg c2wStore "did:op:w2" [7] []).2 "vault-w2" =
      some { c2wRec with active_nonce := none }
    ∧ part_sign c2wCrypto c2wReg
        (part_sign c2wCrypto c2wReg c2wStore "did:op:w2" [7] []).2
        "did:op:w2" [7] [] =
      (.error "NoActiveNonce",
        (part_sign c2wCrypto c2wReg c2wStore "did:op:w2" [7] []).2) :=
  part_sign_consumes_nonce_after_shard_load c2wCrypto c2wReg c2wStore
    "did:op:w2" [7] [] "vault-w2" c2wRec "c2hhcmQ" [1] [2] [9]
    rfl rfl rfl rfl rfl rfl

/-- Session of the C5 counterexample. -/
def c5Sess : DKGSession :=
  { group_id := "g5"
    localState :=
      { operational_did := "did:op:5"
        threshold := 2
        participant_ids := ["p", "q"]
        round1_received := []
        round2_received := []
        finalized := false
        keygen_machine := some [0] } }

/-- Session table of the C5 counterexample. -/
def c5Sessions : DKGSessions := [("g5", c5Sess)]

/-- A decoder under which every payload is a Round1 package of itself. -/
def c5Decode : List Nat → Option DKGMessage := fun raw => some (.round1 raw)

/-- Counterexample for C5 as frozen: peer `p` submits Round1 payload `[1]`
and then Round1 payload `[2]` for the same session.  The second
`handle_message` succeeds, the stored package for `p` is the LATER `[2]` —
`HashMap::insert` replaces the first — and the audit tracker is untouched (no
`Error` event is recorded). -/
theorem handle_message_duplicate_overwrites_and_no_audit :
    (handle_message c5Decode
      (handle_message c5Decode c5Sessions (AuditTracker.new 500) "g5" "p" [1]).2.1
      (handle_message c5Decode c5Sessions (AuditTracker.new 500) "g5" "p" [1]).2.2
      "g5" "p" [2]).1 = .ok ()
    ∧ (mapGet (handle_message c5Decode
        (handle_message c5Decode c5Sessions (AuditTracker.new 500) "g5" "p" [1]).2.1
        (handle_message c5Decode c5Sessions (AuditTracker.new 500) "g5" "p" [1]).2.2
        "g5" "p" [2]).2.1 "g5").map
        (fun s => s.localState.round1_received) = some [("p", [2])]
    ∧ (handle_message c5Decode
        (handle_message c5Decode c5Sessions (AuditTracker.new 500) "g5" "p" [1]).2.1
        (handle_message c5Decode c5Sessions (AuditTracker.new 500) "g5" "p" [1]).2.2
        "g5" "p" [2]).2.2 = AuditTracker.new 500 :=
  ⟨rfl, rfl, rfl⟩

/-- C5 amended: when the same peer submits a second Round1 package for the
same session, the second submission SUCCEEDS and REPLACES the stored package
(the stored package for that peer is the later one), and no audit event of
any kind is recorded — `handle_message` never touches the audit tracker. -/
theorem handle_message_duplicate_replaces
    (decode : List Nat → Option DKGMessage) (sessions : DKGSessions)
    (audit : AuditTracker) (group_id peer : String) (m1 m2 raw1 raw2 : List Nat)
    (sess : DKGSession)
    (h1 : decode m1 = some (.round1 raw1))
    (h2 : decode m2 = some (.round1 raw2))
    (hs : mapGet sessions group_id = some sess) :
    (handle_message decode
      (handle_message decode sessions audit group_id peer m1).2.1
      (handle_message decode sessions audit group_id peer m1).2.2
      group_id peer m2).1 = .ok ()
    ∧ (handle_message decode
        (handle_message decode sessions audit group_id peer m1).2.1
        (handle_message decode sessions audit group_id peer m1).2.2
        group_id peer m2).2.2 = audit
    ∧ (mapGet (handle_message decode
        (handle_message decode sessions audit group_id peer m1).2.1
        (handle_message decode sessions audit group_id peer m1).2.2
        group_id peer m2).2.1 group_id).map
        (fun s => mapGet s.localState.round1_received peer) = some (some raw2) := by
  have hout1 : handle_message decode sessions audit group_id peer m1 =
      (.ok (), mapPut sessions group_id
        { sess with localState := { sess.localState with
            round1_received := mapPut sess.localState.round1_received peer raw1 } },
        audit) := by
    unfold handle_message
    simp only [h1, hs]
  have hs2 : mapGet (mapPut sessions group_id
      { sess with localState := { sess.localState with
          round1_received := mapPut sess.localState.round1_received peer raw1 } })
      group_id =
      some { sess with localState := { sess.localState with
          round1_received := mapPut sess.localState.round1_received peer raw1 } } :=
    mapGet_mapPut_self sessions group_id _
  have hout2 : handle_message decode
      (mapPut sessions group_id
        { sess with localState := { sess.localState with
            round1_received := mapPut sess.localState.round1_received peer raw1 } })
      audit group_id peer m2 =
      (.ok (), mapPut
        (mapPut sessions group_id
          { sess with localState := { sess.localState with
              round1_received := mapPut sess.localState.round1_received peer raw1 } })
        group_id
        { sess with localState := { sess.localState with
            round1_received :=
              mapPut (mapPut sess.localState.round1_received peer raw1) peer raw2 } },
        audit) := by
    unfold handle_message
    simp only [h2, hs2]
  rw [hout1]
  simp only [hout2, mapGet_mapPut_self]
  refine ⟨trivial, trivial, ?_⟩
  simp [mapGet_mapPut_self]

/-- Witness for C5: the duplicate-replacement theorem applied to the concrete
session table with payloads `[3]` then `[4]` from peer `p`. -/
theorem handle_message_duplicate_replaces_witness :
    (handle_message c5Decode
      (handle_message c5Decode c5Sessions (AuditTracker.new 7) "g5" "p" [3]).2.1
      (handle_message c5Decode c5Sessions (AuditTracker.new 7) "g5" "p" [3]).2.2
      "g5" "p" [4]).1 = .ok ()
    ∧ (handle_message c5Decode
        (handle_message c5Decode c5Sessions (AuditTracker.new 7) "g5" "p" [3]).2.1
        (handle_message c5Decode c5Sessions (AuditTracker.new 7) "g5" "p" [3]).2.2
        "g5" "p" [4]).2.2 = AuditTracker.new 7
    ∧ (mapGet (handle_message c5Decode
        (handle_message c5Decode c5Sessions (AuditTracker.new 7) "g5" "p" [3]).2.1
        (handle_message c5Decode c5Sessions (AuditTracker.new 7) "g5" "p" [3]).2.2
        "g5" "p" [4]).2.1 "g5").map
        (fun s => mapGet s.localState.round1_received "p") = some (some [4]) :=
  handle_message_duplicate_replaces c5Decode c5Sessions (AuditTracker.new 7)
    "g5" "p" [3] [4] [3] [4] c5Sess rfl rfl rfl

/-- DKG crypto for C4: every primitive succeeds; `finish` yields shard `[7]`
and one member. -/
def c4Crypto : DKGCrypto :=
  { parseRound2 := fun _ => some []
    idOf := fun _ => []
    finish := fun _ _ => some ([7], [("n1", "pk")])
    b64encode := fun _ => "eA==" }

/-- Session of the C4 counterexample, ready to finalize. -/
def c4Sess : DKGSession :=
  { group_id := "g4"
    localState :=
      { operational_did := "did:op:4"
        threshold := 1
        participant_ids := ["n1"]
        round1_received := []
        round2_received := []
        finalized := false
        keygen_machine := some [0] } }

/-- Session table of the C4 counterexample. -/
def c4Sessions : DKGSessions := [("g4", c4Sess)]

/-- Registry of the C4 counterexample: the DID resolves to vault `vault-4`,
which has no record in the (empty) vault store, so the vault write fails. -/
def c4Reg : Registry :=
  [("did:op:4",
    { root_did_hash := "roothash:dd"
      vault_id := "vault-4"
      mpc_group := none
      audit_trail := []
      did_document := none })]

/-- Counterexample for C4 as frozen: when the vault write fails during
finalization, the error is returned but the session is NOT rolled back — it
was removed from the session table up front and stays removed, so the system
state differs from "as if finalization had not been attempted"
(re-finalization is impossible). -/
theorem finalize_vault_failure_drops_session :
    (finalize c4Crypto c4Sessions c4Reg [] "g4").1 = .error .vaultStorageFailed
    ∧ (finalize c4Crypto c4Sessions c4Reg [] "g4").2.1 = []
    ∧ ¬ (([] : DKGSessions) = c4Sessions)
    ∧ (finalize c4Crypto c4Sessions c4Reg [] "g4").2.2.1 = []
    ∧ (finalize c4Crypto c4Sessions c4Reg [] "g4").2.2.2 = c4Reg :=
  ⟨rfl, rfl, by intro h; simp [c4Sessions] at h, rfl, rfl⟩

/-- C4 amended: if the vault write fails during DKG finalization, the call
errors with `VaultStorageFailed`, no shard is stored (the vault store is
returned unchanged) and the registry — hence the group descriptor, which
remains absent — is untouched; but the session is consumed rather than rolled
back: the session table is the input table with the session removed.  (No
shard-deletion rollback exists in `finalize`; on the sequential model the
registry write cannot fail after a successful vault write, so the claim's
"shard already written is deleted" scenario reduces to this one.) -/
theorem finalize_vault_failure_no_rollback
    (c : DKGCrypto) (sessions : DKGSessions) (reg : Registry) (store : VaultStore)
    (group_id : String) (sess : DKGSession) (machine : List Nat)
    (received : List (List Nat × List Nat)) (shard : List Nat)
    (pubkeys : List (String × String)) (vault_id : String)
    (hs : mapGet sessions group_id = some sess)
    (hm : sess.localState.keygen_machine = some machine)
    (hr2 : collectRound2 c sess.localState.round2_received = some received)
    (hfin : c.finish machine received = some (shard, pubkeys))
    (hvid : get_vault_id_for_operational_did reg sess.localState.operational_did =
      some vault_id)
    (hmiss : mapGet store vault_id = none) :
    finalize c sessions reg store group_id =
      (.error .vaultStorageFailed, mapDrop sessions group_id, store, reg) := by
  unfold finalize add_shard load_record
  simp only [hs, hm, hr2, hfin, hvid, hmiss]

/-- Witness for C4: the no-rollback theorem applied to the concrete
counterexample state. -/
theorem finalize_vault_failure_no_rollback_witness :
    finalize c4Crypto c4Sessions c4Reg [] "g4" =
      (.error .vaultStorageFailed, mapDrop c4Sessions "g4", [], c4Reg) :=
  finalize_vault_failure_no_rollback c4Crypto c4Sessions c4Reg [] "g4"
    c4Sess [0] [] [7] [("n1", "pk")] "vault-4" rfl rfl rfl rfl rfl rfl

/-- When every nonce RPC succeeds, the nonce round contacts exactly the given
peer list, in order, and ends in a session. -/
theorem runNonceCalls_all_some (resp : String → Option (List Nat))
    (sess : SigningSession) (ps : List String)
    (h : ∀ p ∈ ps, (resp p).isSome) :
    (runNonceCalls resp sess ps).2 = ps
    ∧ ∃ s, (runNonceCalls resp sess ps).1 = .ok s := by
  induction ps generalizing sess with
  | nil => exact ⟨rfl, sess, rfl⟩
  | cons p rest ih =>
    have hp : (resp p).isSome := h p (List.mem_cons_self p rest)
    obtain ⟨v, hv⟩ := Option.isSome_iff_exists.mp hp
    obtain ⟨htr, s, hres⟩ :=
      ih (sess.record_commitment p v) (fun q hq => h q (List.mem_cons_of_mem _ hq))
    simp only [runNonceCalls, hv]
    exact ⟨by rw [htr], s, hres⟩

/-- Same statement for the signing round. -/
theorem runSignCalls_all_some (resp : String → Option (List Nat))
    (sess : SigningSession) (ps : List String)
    (h : ∀ p ∈ ps, (resp p).isSome) :
    (runSignCalls resp sess ps).2 = ps
    ∧ ∃ s, (runSignCalls resp sess ps).1 = .ok s := by
  induction ps generalizing sess with
  | nil => exact ⟨rfl, sess, rfl⟩
  | cons p rest ih =>
    have hp : (resp p).isSome := h p (List.mem_cons_self p rest)
    obtain ⟨v, hv⟩ := Option.isSome_iff_exists.mp hp
    obtain ⟨htr, s, hres⟩ :=
      ih (sess.record_share p v) (fun q hq => h q (List.mem_cons_of_mem _ hq))
    simp only [runSignCalls, hv]
    exact ⟨by rw [htr], s, hres⟩

/-- First member of the C6 group. -/
def c6Member1 : MPCMemberDescriptor :=
  { vault_reference := "v1", custody_node_id := "n1", shard_index := 0, public_share := "p1" }

/-- Second member of the C6 group. -/
def c6Member2 : MPCMemberDescriptor :=
  { vault_reference := "v2", custody_node_id := "n2", shard_index := 1, public_share := "p2" }

/-- A two-member group with threshold 1. -/
def c6Group : MPCGroupDescriptor :=
  { group_id := "g6"
    members := [c6Member1, c6Member2]
    threshold := 1
    dkg_protocol := some "frost-ed25519-dkg-v1"
    session_state := none }

/-- Registry of the C6 counterexample. -/
def c6Reg : Registry :=
  [("did:op:6",
    { root_did_hash := "roothash:ee"
      vault_id := "v6"
      mpc_group := some c6Group
      audit_trail := []
      did_document := none })]

/-- Counterexample for C6 as frozen: on a 2-member group with threshold 1,
with every peer responsive, `sign` contacts BOTH members in each round — the
set of participants it cooperates with has size 2, not `threshold = 1`; no
cohort of lowest `shard_index` values is selected. -/
theorem coordinator_sign_contacts_more_than_threshold :
    (coordinator_sign c6Reg (fun _ => some [0]) (fun _ => some [1])
      (fun _ _ _ => some [2]) "did:op:6" [5]).2 = ["n1", "n2", "n1", "n2"]
    ∧ c6Group.threshold = 1
    ∧ ¬ (((coordinator_sign c6Reg (fun _ => some [0]) (fun _ => some [1])
        (fun _ _ _ => some [2]) "did:op:6" [5]).2).dedup.length = c6Group.threshold) :=
  ⟨rfl, rfl, by decide⟩

/-- C6 amended: for a DID with an established group descriptor, `sign` builds
its participant list from ALL group members (in stored member order, with no
cohort selection by `shard_index` and no availability probing) and — whenever
every peer answers both RPCs — contacts every member once in the commitment
round and once in the signing round; aggregation then proceeds only if at
least `threshold` shares were collected. -/
theorem coordinator_sign_contacts_every_member
    (reg : Registry) (nonceResp signResp : String → Option (List Nat))
    (aggregateFn : List (String × List Nat) → List Nat → MPCGroupDescriptor →
      Option (List Nat))
    (op_did : String) (message : List Nat) (group : MPCGroupDescriptor)
    (hg : get_mpc_group reg op_did = some group)
    (hn : ∀ p ∈ group.members.map (fun m => m.custody_node_id), (nonceResp p).isSome)
    (hs : ∀ p ∈ group.members.map (fun m => m.custody_node_id), (signResp p).isSome) :
    (coordinator_sign reg nonceResp signResp aggregateFn op_did message).2 =
      group.members.map (fun m => m.custody_node_id) ++
      group.members.map (fun m => m.custody_node_id) := by
  obtain ⟨htr1, s1, hres1⟩ := runNonceCalls_all_some nonceResp
    { operational_did := op_did, message := message, group_id := group.group_id
      nonce_commitments := [], part_sigs := [], threshold := group.threshold }
    (group.members.map (fun m => m.custody_node_id)) hn
  have hpair1 : runNonceCalls nonceResp
      { operational_did := op_did, message := message, group_id := group.group_id
        nonce_commitments := [], part_sigs := [], threshold := group.threshold }
      (group.members.map (fun m => m.custody_node_id)) =
      (.ok s1, group.members.map (fun m => m.custody_node_id)) := by
    have heta : runNonceCalls nonceResp
        { operational_did := op_did, message := message, group_id := group.group_id
          nonce_commitments := [], part_sigs := [], threshold := group.threshold }
        (group.members.map (fun m => m.custody_node_id)) =
        ((runNonceCalls nonceResp
          { operational_did := op_did, message := message, group_id := group.group_id
            nonce_commitments := [], part_sigs := [], threshold := group.threshold }
          (group.members.map (fun m => m.custody_node_id))).1,
         (runNonceCalls nonceResp
          { operational_did := op_did, message := message, group_id := group.group_id
            nonce_commitments := [], part_sigs := [], threshold := group.threshold }
          (group.members.map (fun m => m.custody_node_id))).2) := rfl
    rw [heta, hres1, htr1]
  obtain ⟨htr2, s2, hres2⟩ := runSignCalls_all_some signResp s1
    (group.members.map (fun m => m.custody_node_id)) hs
  have hpair2 : runSignCalls signResp s1
      (group.members.map (fun m => m.custody_node_id)) =
      (.ok s2, group.members.map (fun m => m.custody_node_id)) := by
    have heta : runSignCalls signResp s1
        (group.members.map (fun m => m.custody_node_id)) =
        ((runSignCalls signResp s1
          (group.members.map (fun m => m.custody_node_id))).1,
         (runSignCalls signResp s1
          (group.members.map (fun m => m.custody_node_id))).2) := rfl
    rw [heta, hres2, htr2]
  unfold coordinator_sign SigningSession.new
  simp only [hg, hpair1, hpair2]
  by_cases hrdy : s2.ready_to_aggregate
  · simp only [if_pos hrdy]
    cases aggregateFn s2.part_sigs s2.message group <;> rfl
  · simp only [if_neg hrdy]

/-- Witness for C6: the contact-trace theorem applied to the concrete
two-member registry with all peers responsive. -/
theorem coordinator_sign_contacts_every_member_witness :
    (coordinator_sign c6Reg (fun _ => some [3]) (fun _ => some [4])
      (fun _ _ _ => none) "did:op:6" [8]).2 =
      c6Group.members.map (fun m => m.custody_node_id) ++
      c6Group.members.map (fun m => m.custody_node_id) :=
  coordinator_sign_contacts_every_member c6Reg (fun _ => some [3]) (fun _ => some [4])
    (fun _ _ _ => none) "did:op:6" [8] c6Group rfl (by decide) (by decide)
